import Mathlib

/-!
Verification of the finite-field Diffie-Hellman core in wolfcrypt/src/dh.c.

The arbitrary-precision integer engine (the mp_ functions) is an external
collaborator of this core: big integers are modelled as Nat, byte buffers as
List Nat holding big-endian digits base 256, and the engine operations as the
corresponding total functions on Nat.  Fallibility of engine calls (handle
initialization, decoding, exponentiation, encoding) and of the random source
is modelled by a record of Booleans, one per call site, over which theorems
quantify.  Allocation and release of big-integer handles, and the order of
engine operations, are recorded as event traces so that resource and ordering
properties can be stated.
-/

/-- Error outcomes of the DH core.  Modelled from the spec: the numeric codes
of the C implementation live in wolfssl/wolfcrypt/error-crypt.h, outside this
core; only their distinctness is relied upon, so they are modelled as an
inductive type. -/
inductive DhError
  | BAD_FUNC_ARG
  | MEMORY_E
  | MP_INIT_E
  | MP_READ_E
  | MP_CMP_E
  | MP_SUB_E
  | MP_EXPTMOD_E
  | MP_TO_E
  | ASN_DH_KEY_E
  | DH_CHECK_PUB_E
  | RNG_E
deriving DecidableEq

/-- Equality of Except values is decidable when it is on both sides. -/
instance {ε α : Type} [DecidableEq ε] [DecidableEq α] :
    DecidableEq (Except ε α) := fun a b =>
  match a, b with
  | Except.ok x, Except.ok y =>
    if h : x = y then isTrue (by rw [h]) else isFalse (by simp [h])
  | Except.error x, Except.error y =>
    if h : x = y then isTrue (by rw [h]) else isFalse (by simp [h])
  | Except.ok _, Except.error _ => isFalse (by simp)
  | Except.error _, Except.ok _ => isFalse (by simp)

/-- Decode an unsigned big-endian byte buffer into a natural number, the model
of mp_read_unsigned_bin.  Modelled from the spec: the engine decoder reads the
bytes most significant first; a zero-length buffer yields the value 0. -/
def mp_read_unsigned_bin (bs : List Nat) : Nat :=
  bs.foldl (fun acc b => 256 * acc + b) 0

/-- Fuel-driven big-endian encoder: with fuel at least the value, produces the
minimal big-endian digit list of the value. -/
def natToBE : Nat → Nat → List Nat
  | 0, _ => []
  | fuel + 1, n => if n = 0 then [] else natToBE fuel (n / 256) ++ [n % 256]

/-- Encode a natural number as its minimal unsigned big-endian byte buffer,
the model of mp_to_unsigned_bin.  Modelled from the spec: the engine encoder
emits no leading zero byte, and the value 0 encodes as the empty buffer. -/
def mp_to_unsigned_bin (n : Nat) : List Nat :=
  natToBE n n

/-- Byte length of the minimal encoding, the model of mp_unsigned_bin_size. -/
def mp_unsigned_bin_size (n : Nat) : Nat :=
  (mp_to_unsigned_bin n).length

/-- The DhKey structure of dh.c: modulus p and generator g. -/
structure DhKey where
  p : Nat
  g : Nat
deriving DecidableEq

/-- One Boolean per fallible engine or RNG call site in dh.c; true means the
call succeeds.  Theorems quantify over this record, so they cover every
combination of external failures. -/
structure Faults where
  chkInitOk : Bool
  chkReadOk : Bool
  chkCopyOk : Bool
  chkSubOk : Bool
  agInitOk : Bool
  agReadPrivOk : Bool
  agReadPeerOk : Bool
  agExptOk : Bool
  agToBinOk : Bool
  genInitOk : Bool
  genReadOk : Bool
  genExptOk : Bool
  genToBinOk : Bool
  setInitPOk : Bool
  setReadPOk : Bool
  setInitGOk : Bool
  setReadGOk : Bool
  rngOk : Bool
deriving DecidableEq

/-- The fault record in which every external call succeeds. -/
def noFaults : Faults :=
  ⟨true, true, true, true, true, true, true, true, true, true, true, true,
   true, true, true, true, true, true⟩

/-- Resource events: allocation and release of a named big-integer handle. -/
inductive Ev
  | alloc : String → Ev
  | free : String → Ev
deriving DecidableEq

/-- Engine operation events, recorded in call order. -/
inductive Op
  | chkRead
  | chkCopy
  | chkSub
  | agReadPriv
  | agReadPeer
  | agExptmod
  | agEncode
  | genRead
  | genExptmod
  | genEncode
deriving DecidableEq

/-- Fold one resource event into the list of live handles. -/
def liveStep (acc : List String) : Ev → List String
  | Ev.alloc h => h :: acc
  | Ev.free h => acc.erase h

/-- Handles still allocated after a trace of resource events. -/
def liveHandles (evs : List Ev) : List String :=
  evs.foldl liveStep []

/-- Model of wc_DhCheckPubKey (dh.c lines 196-235), instrumented with
resource and operation traces.  The candidate is decoded, rejected if below 2,
then compared against p - 2 computed by mp_copy and mp_sub_d; the comparison
against p - 2 is over signed engine integers, hence over Int here.  The two
scratch handles are cleared unconditionally before return. -/
def wc_DhCheckPubKeyT (f : Faults) (key : DhKey) (pub : List Nat) :
    Option DhError × List Ev × List Op :=
  if f.chkInitOk = false then (some DhError.MP_INIT_E, [], [])
  else
    let x := mp_read_unsigned_bin pub
    let r1 : Option DhError := if f.chkReadOk then none else some DhError.MP_READ_E
    let r2 := if r1 = none ∧ x < 2 then some DhError.MP_CMP_E else r1
    let r3 := if r2 = none ∧ f.chkCopyOk = false then some DhError.MP_INIT_E else r2
    let r4 := if r3 = none ∧ f.chkSubOk = false then some DhError.MP_SUB_E else r3
    let r5 := if r4 = none ∧ (x : Int) > (key.p : Int) - 2 then some DhError.MP_CMP_E else r4
    let ops := [Op.chkRead] ++ (if r2 = none then [Op.chkCopy] else [])
      ++ (if r3 = none then [Op.chkSub] else [])
    (r5, [Ev.alloc "x", Ev.alloc "y", Ev.free "y", Ev.free "x"], ops)

/-- Result of wc_DhCheckPubKey with no external faults: none is success. -/
def wc_DhCheckPubKey (key : DhKey) (pub : List Nat) : Option DhError :=
  (wc_DhCheckPubKeyT noFaults key pub).1

/-- Model of wc_DhAgree (dh.c lines 238-275), instrumented with traces.  The
peer public key is checked first; any check failure is mapped to
DH_CHECK_PUB_E and the function returns before initializing its own handles.
Otherwise the private and peer buffers are decoded, the shared secret
computed as peer ^ priv mod p and encoded; the three scratch handles are
cleared unconditionally before return. -/
def wc_DhAgreeT (f : Faults) (key : DhKey) (priv otherPub : List Nat) :
    Except DhError (List Nat) × List Ev × List Op :=
  let chk := wc_DhCheckPubKeyT f key otherPub
  if chk.1 ≠ none then
    (Except.error DhError.DH_CHECK_PUB_E, chk.2.1, chk.2.2)
  else if f.agInitOk = false then
    (Except.error DhError.MP_INIT_E, chk.2.1, chk.2.2)
  else
    let x := mp_read_unsigned_bin priv
    let y := mp_read_unsigned_bin otherPub
    let r1 : Option DhError := if f.agReadPrivOk then none else some DhError.MP_READ_E
    let r2 := if r1 = none ∧ f.agReadPeerOk = false then some DhError.MP_READ_E else r1
    let r3 := if r2 = none ∧ f.agExptOk = false then some DhError.MP_EXPTMOD_E else r2
    let r4 := if r3 = none ∧ f.agToBinOk = false then some DhError.MP_TO_E else r3
    let ops := chk.2.2 ++ [Op.agReadPriv]
      ++ (if r1 = none then [Op.agReadPeer] else [])
      ++ (if r2 = none then [Op.agExptmod] else [])
      ++ (if r3 = none then [Op.agEncode] else [])
    let rsc := chk.2.1 ++ [Ev.alloc "x", Ev.alloc "y", Ev.alloc "z",
      Ev.free "z", Ev.free "y", Ev.free "x"]
    (match r4 with
     | none => Except.ok (mp_to_unsigned_bin (y ^ x % key.p))
     | some e => Except.error e, rsc, ops)

/-- Result of wc_DhAgree with no external faults. -/
def wc_DhAgree (key : DhKey) (priv otherPub : List Nat) :
    Except DhError (List Nat) :=
  (wc_DhAgreeT noFaults key priv otherPub).1

/-- Model of GeneratePublic (dh.c lines 149-176), instrumented with traces:
decode the private buffer, compute g ^ x mod p, encode it; both scratch
handles are cleared unconditionally before return. -/
def GeneratePublicT (f : Faults) (key : DhKey) (priv : List Nat) :
    Except DhError (List Nat) × List Ev × List Op :=
  if f.genInitOk = false then (Except.error DhError.MP_INIT_E, [], [])
  else
    let x := mp_read_unsigned_bin priv
    let r1 : Option DhError := if f.genReadOk then none else some DhError.MP_READ_E
    let r2 := if r1 = none ∧ f.genExptOk = false then some DhError.MP_EXPTMOD_E else r1
    let r3 := if r2 = none ∧ f.genToBinOk = false then some DhError.MP_TO_E else r2
    let ops := [Op.genRead] ++ (if r1 = none then [Op.genExptmod] else [])
      ++ (if r2 = none then [Op.genEncode] else [])
    let rsc := [Ev.alloc "x", Ev.alloc "y", Ev.free "y", Ev.free "x"]
    (match r3 with
     | none => Except.ok (mp_to_unsigned_bin (key.g ^ x % key.p))
     | some e => Except.error e, rsc, ops)

/-- Result of GeneratePublic with no external faults. -/
def GeneratePublic (key : DhKey) (priv : List Nat) : Except DhError (List Nat) :=
  (GeneratePublicT noFaults key priv).1

/-- The leading-zero stripping step near the top of wc_DhSetKey: one leading
zero byte is removed when present; applied once per buffer. -/
def stripLeadZero : List Nat → List Nat
  | [] => []
  | b :: rest => if b = 0 then rest else b :: rest

/-- Model of wc_DhSetKey (dh.c lines 279-312), instrumented with a resource
trace.  Empty buffers are rejected before stripping; then at most one leading
zero byte is stripped from each buffer, p is initialized and decoded, then g;
on any failure after an allocation every allocated handle is cleared before
returning. -/
def wc_DhSetKeyT (f : Faults) (pB gB : List Nat) :
    Except DhError DhKey × List Ev :=
  if pB = [] ∨ gB = [] then (Except.error DhError.BAD_FUNC_ARG, [])
  else
    let p1 := stripLeadZero pB
    let g1 := stripLeadZero gB
    if f.setInitPOk = false then (Except.error DhError.MP_INIT_E, [])
    else if f.setReadPOk = false then
      (Except.error DhError.ASN_DH_KEY_E, [Ev.alloc "p", Ev.free "p"])
    else if f.setInitGOk = false then
      (Except.error DhError.MP_INIT_E, [Ev.alloc "p", Ev.free "p"])
    else if f.setReadGOk = false then
      (Except.error DhError.ASN_DH_KEY_E,
       [Ev.alloc "p", Ev.alloc "g", Ev.free "g", Ev.free "p"])
    else
      (Except.ok ⟨mp_read_unsigned_bin p1, mp_read_unsigned_bin g1⟩,
       [Ev.alloc "p", Ev.alloc "g"])

/-- Result of wc_DhSetKey with no external faults. -/
def wc_DhSetKey (pB gB : List Nat) : Except DhError DhKey :=
  (wc_DhSetKeyT noFaults pB gB).1

/-- The sizing policy of GeneratePrivate: heuristic is the default build (the
WOLFSSL_DH_CONST macro undefined, floating-point work-factor fallback
available), fixedTable is the WOLFSSL_DH_CONST build (round up to a multiple
of 128 bytes, only tabulated sizes accepted). -/
inductive SizePolicy
  | heuristic
  | fixedTable
deriving DecidableEq

/-- The WOLFSSL_DH_ROUND macro of dh.c lines 96-103: round a word32 byte
count up to the next multiple of 128 when it is not one already. -/
def WOLFSSL_DH_ROUND (x : Nat) : Nat :=
  if x % 128 ≠ 0 then (x &&& 0xffffff80) + 128 else x

/-- The switch table of GeneratePrivate (dh.c lines 117-125): exponent byte
counts for the tabulated modulus byte counts; none selects the default
branch. -/
def dhExpTable (sz : Nat) : Option Nat :=
  if sz = 128 then some 21
  else if sz = 256 then some 29
  else if sz = 384 then some 34
  else if sz = 512 then some 39
  else if sz = 640 then some 42
  else if sz = 768 then some 46
  else if sz = 896 then some 49
  else if sz = 1024 then some 52
  else none

/-- The private-exponent sizing step of GeneratePrivate (dh.c lines 110-135).
The parameter wf models DiscreteLogWorkFactor, whose value involves
floating-point pow and log; the theorems below hold for every wf.  Under the
heuristic policy the size feeding the table is the raw byte count and the
default branch takes the minimum of that count and 2 * wf(bits) / 8 + 1;
under the fixed-table policy the count is first rounded by WOLFSSL_DH_ROUND
and the default branch fails with BAD_FUNC_ARG. -/
def exponentSize (pol : SizePolicy) (wf : Nat → Nat) (szIn : Nat) :
    Except DhError Nat :=
  let sz := match pol with
    | SizePolicy.heuristic => szIn
    | SizePolicy.fixedTable => WOLFSSL_DH_ROUND szIn
  match dhExpTable sz with
  | some v => Except.ok v
  | none =>
    match pol with
    | SizePolicy.heuristic => Except.ok (min sz (2 * wf (sz * 8) / 8 + 1))
    | SizePolicy.fixedTable => Except.error DhError.BAD_FUNC_ARG

/-- The statement priv[0] |= 0x0C of dh.c line 141, on the byte buffer. -/
def forceBits : List Nat → List Nat
  | [] => []
  | b :: rest => (b ||| 0x0C) :: rest

/-- Model of GeneratePrivate (dh.c lines 107-146): size the exponent from the
byte length of p, draw that many random bytes (rng n models a successful draw
of n bytes; f.rngOk models the draw failing), and force bits 0x0C on in the
first byte. -/
def GeneratePrivate (pol : SizePolicy) (wf : Nat → Nat) (f : Faults)
    (key : DhKey) (rng : Nat → List Nat) : Except DhError (List Nat) :=
  match exponentSize pol wf (mp_unsigned_bin_size key.p) with
  | Except.error e => Except.error e
  | Except.ok sz =>
    if f.rngOk = false then Except.error DhError.RNG_E
    else Except.ok (forceBits (rng sz))

/-- Fault record in which only the peer-key decode inside the public-key
check fails. -/
def chkReadFails : Faults := { noFaults with chkReadOk := false }

/-- Fault record in which only the handle initialization inside the
public-key check fails. -/
def chkInitFails : Faults := { noFaults with chkInitOk := false }

/-- Fault record in which only the decode of the g buffer inside wc_DhSetKey
fails. -/
def setReadGFails : Faults := { noFaults with setReadGOk := false }

/-- Decoding a buffer produced by the fuel-driven encoder recovers the value,
with the accumulator shifted past the emitted digits. -/
theorem foldl_natToBE (fuel : Nat) : ∀ n a, n ≤ fuel →
    List.foldl (fun acc b => 256 * acc + b) a (natToBE fuel n)
      = a * 256 ^ (natToBE fuel n).length + n := by
  induction fuel with
  | zero =>
    intro n a h
    have hn : n = 0 := Nat.le_zero.mp h
    subst hn
    simp [natToBE]
  | succ f ih =>
    intro n a h
    by_cases hn : n = 0
    · subst hn
      simp [natToBE]
    · have hdiv : n / 256 < n := Nat.div_lt_self (Nat.pos_of_ne_zero hn) (by norm_num)
      have hle : n / 256 ≤ f := by omega
      simp only [natToBE, if_neg hn]
      rw [List.foldl_append, ih (n / 256) a hle]
      simp only [List.foldl_cons, List.foldl_nil, List.length_append,
        List.length_singleton]
      calc 256 * (a * 256 ^ (natToBE f (n / 256)).length + n / 256) + n % 256
          = a * (256 ^ (natToBE f (n / 256)).length * 256)
              + (256 * (n / 256) + n % 256) := by ring
        _ = a * 256 ^ ((natToBE f (n / 256)).length + 1) + n := by
            rw [Nat.div_add_mod, pow_succ]

/-- Round trip: decoding the minimal encoding of a value gives it back. -/
theorem read_to_unsigned_bin (n : Nat) :
    mp_read_unsigned_bin (mp_to_unsigned_bin n) = n := by
  unfold mp_read_unsigned_bin mp_to_unsigned_bin
  rw [foldl_natToBE n n 0 le_rfl]
  simp

/-- Forcing bits 0x0C into a byte makes them read back as set. -/
theorem lor_land_twelve (b : Nat) : (b ||| 12) &&& 12 = 12 := by
  apply Nat.eq_of_testBit_eq
  intro i
  simp only [Nat.testBit_land, Nat.testBit_lor]
  cases h : Nat.testBit 12 i <;> simp [h]

/-- The fault-free public-key check succeeds exactly on candidates whose
decoded value lies in the closed interval from 2 to p - 2. -/
theorem checkPubKey_none_iff (key : DhKey) (pub : List Nat) :
    wc_DhCheckPubKey key pub = none ↔
      2 ≤ mp_read_unsigned_bin pub ∧ mp_read_unsigned_bin pub ≤ key.p - 2 := by
  unfold wc_DhCheckPubKey wc_DhCheckPubKeyT noFaults
  simp
  split_ifs with h1 h2 <;> simp <;> omega

/-- When the fault-free public-key check passes, wc_DhAgree returns the
minimal encoding of peer ^ priv mod p. -/
theorem agree_eval (key : DhKey) (priv pub : List Nat)
    (h : wc_DhCheckPubKey key pub = none) :
    wc_DhAgree key priv pub = Except.ok
      (mp_to_unsigned_bin
        (mp_read_unsigned_bin pub ^ mp_read_unsigned_bin priv % key.p)) := by
  unfold wc_DhCheckPubKey at h
  unfold wc_DhAgree wc_DhAgreeT
  simp [noFaults] at h
  simp [h, noFaults]

/-- Claim C1 (amended): for every domain-parameter object with modulus p and
every candidate byte buffer, wc_DhCheckPubKey returns an error exactly when
the decoded value lies outside the interval from 2 to p - 2, and it rejects
the candidates 0, 1, p - 1 and p, all of this with no restriction on p; it
accepts 2 and p - 2 whenever p is at least 4.  As stated, with the
acceptance unrestricted, the claim fails at p = 3; see the
counterexample. -/
theorem C1_checkPubKey_range (p g : Nat) (pub : List Nat) :
    (wc_DhCheckPubKey ⟨p, g⟩ pub = none ↔
      2 ≤ mp_read_unsigned_bin pub ∧ mp_read_unsigned_bin pub ≤ p - 2)
    ∧ wc_DhCheckPubKey ⟨p, g⟩ (mp_to_unsigned_bin 0) ≠ none
    ∧ wc_DhCheckPubKey ⟨p, g⟩ (mp_to_unsigned_bin 1) ≠ none
    ∧ wc_DhCheckPubKey ⟨p, g⟩ (mp_to_unsigned_bin (p - 1)) ≠ none
    ∧ wc_DhCheckPubKey ⟨p, g⟩ (mp_to_unsigned_bin p) ≠ none
    ∧ (4 ≤ p → wc_DhCheckPubKey ⟨p, g⟩ (mp_to_unsigned_bin 2) = none)
    ∧ (4 ≤ p →
        wc_DhCheckPubKey ⟨p, g⟩ (mp_to_unsigned_bin (p - 2)) = none) := by
  have hiff : ∀ bs, wc_DhCheckPubKey ⟨p, g⟩ bs = none ↔
      2 ≤ mp_read_unsigned_bin bs ∧ mp_read_unsigned_bin bs ≤ p - 2 :=
    fun bs => checkPubKey_none_iff ⟨p, g⟩ bs
  refine ⟨hiff pub, ?_, ?_, ?_, ?_, ?_, ?_⟩
  · intro hc
    have h2 := (hiff _).mp hc
    rw [read_to_unsigned_bin] at h2
    omega
  · intro hc
    have h2 := (hiff _).mp hc
    rw [read_to_unsigned_bin] at h2
    omega
  · intro hc
    have h2 := (hiff _).mp hc
    rw [read_to_unsigned_bin] at h2
    omega
  · intro hc
    have h2 := (hiff _).mp hc
    rw [read_to_unsigned_bin] at h2
    omega
  · intro hp
    exact (hiff _).mpr (by rw [read_to_unsigned_bin]; omega)
  · intro hp
    exact (hiff _).mpr (by rw [read_to_unsigned_bin]; omega)

/-- Witness for C1 at p = 23, g = 5, candidate buffer [7], with the two
acceptance hypotheses discharged at p = 23. -/
theorem C1_checkPubKey_range_witness :
    (wc_DhCheckPubKey ⟨23, 5⟩ [7] = none ↔
      2 ≤ mp_read_unsigned_bin [7] ∧ mp_read_unsigned_bin [7] ≤ 23 - 2)
    ∧ wc_DhCheckPubKey ⟨23, 5⟩ (mp_to_unsigned_bin 0) ≠ none
    ∧ wc_DhCheckPubKey ⟨23, 5⟩ (mp_to_unsigned_bin 1) ≠ none
    ∧ wc_DhCheckPubKey ⟨23, 5⟩ (mp_to_unsigned_bin (23 - 1)) ≠ none
    ∧ wc_DhCheckPubKey ⟨23, 5⟩ (mp_to_unsigned_bin 23) ≠ none
    ∧ wc_DhCheckPubKey ⟨23, 5⟩ (mp_to_unsigned_bin 2) = none
    ∧ wc_DhCheckPubKey ⟨23, 5⟩ (mp_to_unsigned_bin (23 - 2)) = none := by
  have h := C1_checkPubKey_range 23 5 [7]
  exact ⟨h.1, h.2.1, h.2.2.1, h.2.2.2.1, h.2.2.2.2.1,
    h.2.2.2.2.2.1 (by decide), h.2.2.2.2.2.2 (by decide)⟩

/-- Counterexample to C1 as stated: with modulus p = 3 the check rejects the
candidate 2, although the claim asserts 2 is accepted for every domain
parameters. -/
theorem C1_cex_p3_rejects_2 :
    wc_DhCheckPubKey ⟨3, 2⟩ (mp_to_unsigned_bin 2) = some DhError.MP_CMP_E := by
  decide

/-- Raising a reduced power to a further power modulo p collapses to a single
power of the base. -/
theorem pow_mod_pow (g u v p : Nat) : (g ^ u % p) ^ v % p = g ^ (u * v) % p := by
  rw [← Nat.pow_mod, ← pow_mul]

/-- Claim C2 (amended): whenever the two public values A = g ^ a mod p and
B = g ^ b mod p both pass the public-key range check, agreement with private
a against peer B and agreement with private b against peer A both succeed and
both return the minimal encoding of g ^ (a * b) mod p.  As stated, without
the range condition, the claim fails: a public value can be p - 1, which
wc_DhAgree rejects; see the counterexample. -/
theorem C2_agree_symmetry (p g a b : Nat)
    (hA : 2 ≤ g ^ a % p ∧ g ^ a % p ≤ p - 2)
    (hB : 2 ≤ g ^ b % p ∧ g ^ b % p ≤ p - 2) :
    wc_DhAgree ⟨p, g⟩ (mp_to_unsigned_bin a) (mp_to_unsigned_bin (g ^ b % p))
      = Except.ok (mp_to_unsigned_bin (g ^ (a * b) % p))
    ∧ wc_DhAgree ⟨p, g⟩ (mp_to_unsigned_bin b) (mp_to_unsigned_bin (g ^ a % p))
      = Except.ok (mp_to_unsigned_bin (g ^ (a * b) % p)) := by
  have hcA : wc_DhCheckPubKey ⟨p, g⟩ (mp_to_unsigned_bin (g ^ a % p)) = none := by
    have := (checkPubKey_none_iff ⟨p, g⟩ (mp_to_unsigned_bin (g ^ a % p))).mpr
    rw [read_to_unsigned_bin] at this
    exact this hA
  have hcB : wc_DhCheckPubKey ⟨p, g⟩ (mp_to_unsigned_bin (g ^ b % p)) = none := by
    have := (checkPubKey_none_iff ⟨p, g⟩ (mp_to_unsigned_bin (g ^ b % p))).mpr
    rw [read_to_unsigned_bin] at this
    exact this hB
  constructor
  · rw [agree_eval _ _ _ hcB, read_to_unsigned_bin, read_to_unsigned_bin]
    show Except.ok (mp_to_unsigned_bin ((g ^ b % p) ^ a % p)) = _
    rw [pow_mod_pow, Nat.mul_comm b a]
  · rw [agree_eval _ _ _ hcA, read_to_unsigned_bin, read_to_unsigned_bin]
    show Except.ok (mp_to_unsigned_bin ((g ^ a % p) ^ b % p)) = _
    rw [pow_mod_pow]

/-- Witness for C2 at p = 23, g = 5, a = 6, b = 15, the end-to-end scenario
of the spec: both agreements return the encoding of 2. -/
theorem C2_agree_symmetry_witness :
    ((2 ≤ 5 ^ 6 % 23 ∧ 5 ^ 6 % 23 ≤ 23 - 2)
      ∧ (2 ≤ 5 ^ 15 % 23 ∧ 5 ^ 15 % 23 ≤ 23 - 2))
    ∧ (wc_DhAgree ⟨23, 5⟩ (mp_to_unsigned_bin 6) (mp_to_unsigned_bin (5 ^ 15 % 23))
        = Except.ok (mp_to_unsigned_bin (5 ^ (6 * 15) % 23))
      ∧ wc_DhAgree ⟨23, 5⟩ (mp_to_unsigned_bin 15) (mp_to_unsigned_bin (5 ^ 6 % 23))
        = Except.ok (mp_to_unsigned_bin (5 ^ (6 * 15) % 23))) :=
  ⟨⟨by decide, by decide⟩, C2_agree_symmetry 23 5 6 15 (by decide) (by decide)⟩

/-- Counterexample to C2 as stated: p = 5, g = 4 satisfy p > g ≥ 2, and the
private values a = b = 1 give public values A = B = 4 = p - 1, so agreement
of a against B fails with DH_CHECK_PUB_E instead of succeeding. -/
theorem C2_cex_order_two_generator :
    wc_DhAgree ⟨5, 4⟩ (mp_to_unsigned_bin 1) (mp_to_unsigned_bin (4 ^ 1 % 5))
      = Except.error DhError.DH_CHECK_PUB_E := by
  decide

/-- The operation trace of the public-key check contains no operation of the
agreement body: in particular neither the peer decode for exponentiation nor
the modular exponentiation. -/
theorem chkOps_no_agree_ops (f : Faults) (key : DhKey) (pub : List Nat) :
    Op.agReadPeer ∉ (wc_DhCheckPubKeyT f key pub).2.2
    ∧ Op.agExptmod ∉ (wc_DhCheckPubKeyT f key pub).2.2 := by
  unfold wc_DhCheckPubKeyT
  split_ifs <;> simp_all

/-- Claim C3: the operation trace of wc_DhAgree always begins with the full
operation trace of the public-key check, so validation comes before any use
of the peer value; and whenever the check fails, wc_DhAgree fails with the
distinct code DH_CHECK_PUB_E, its operation trace is exactly that of the
check, and in particular the peer value has not been decoded for
exponentiation and no modular exponentiation has been performed. -/
theorem C3_agree_validates_first (f : Faults) (key : DhKey)
    (priv pub : List Nat) :
    (∃ rest, (wc_DhAgreeT f key priv pub).2.2
        = (wc_DhCheckPubKeyT f key pub).2.2 ++ rest)
    ∧ ((wc_DhCheckPubKeyT f key pub).1 ≠ none →
        (wc_DhAgreeT f key priv pub).1 = Except.error DhError.DH_CHECK_PUB_E
        ∧ (wc_DhAgreeT f key priv pub).2.2 = (wc_DhCheckPubKeyT f key pub).2.2
        ∧ Op.agReadPeer ∉ (wc_DhAgreeT f key priv pub).2.2
        ∧ Op.agExptmod ∉ (wc_DhAgreeT f key priv pub).2.2) := by
  have hops := chkOps_no_agree_ops f key pub
  by_cases h : (wc_DhCheckPubKeyT f key pub).1 = none
  · refine ⟨?_, fun hne => absurd h hne⟩
    unfold wc_DhAgreeT
    simp only [h, ne_eq, not_true_eq_false, if_false, ite_not]
    by_cases h2 : f.agInitOk = false
    · simp [h2]
    · simp [h2, List.append_assoc]
  · have h1 : wc_DhAgreeT f key priv pub =
        (Except.error DhError.DH_CHECK_PUB_E,
         (wc_DhCheckPubKeyT f key pub).2.1,
         (wc_DhCheckPubKeyT f key pub).2.2) := by
      unfold wc_DhAgreeT
      simp [h]
    rw [h1]
    exact ⟨⟨[], by simp⟩, fun _ => ⟨rfl, rfl, hops.1, hops.2⟩⟩

/-- Witness for C3: with no external faults and peer candidate 1 the check
fails, agreement returns DH_CHECK_PUB_E, and the trace shows no peer decode
and no exponentiation. -/
theorem C3_agree_validates_first_witness :
    (∃ rest, (wc_DhAgreeT noFaults ⟨23, 5⟩ [6] [1]).2.2
        = (wc_DhCheckPubKeyT noFaults ⟨23, 5⟩ [1]).2.2 ++ rest)
    ∧ ((wc_DhAgreeT noFaults ⟨23, 5⟩ [6] [1]).1
        = Except.error DhError.DH_CHECK_PUB_E
      ∧ (wc_DhAgreeT noFaults ⟨23, 5⟩ [6] [1]).2.2
        = (wc_DhCheckPubKeyT noFaults ⟨23, 5⟩ [1]).2.2
      ∧ Op.agReadPeer ∉ (wc_DhAgreeT noFaults ⟨23, 5⟩ [6] [1]).2.2
      ∧ Op.agExptmod ∉ (wc_DhAgreeT noFaults ⟨23, 5⟩ [6] [1]).2.2) :=
  ⟨(C3_agree_validates_first noFaults ⟨23, 5⟩ [6] [1]).1,
   (C3_agree_validates_first noFaults ⟨23, 5⟩ [6] [1]).2 (by decide)⟩

/-- Claim C10: every failure of the public-key check, whatever its internal
error, makes wc_DhAgree return the single code DH_CHECK_PUB_E. -/
theorem C10_agree_collapses_check_errors (f : Faults) (key : DhKey)
    (priv pub : List Nat) (h : (wc_DhCheckPubKeyT f key pub).1 ≠ none) :
    (wc_DhAgreeT f key priv pub).1 = Except.error DhError.DH_CHECK_PUB_E := by
  unfold wc_DhAgreeT
  simp [h]

/-- Witness for C10 under its three failure modes: peer decode failure,
handle initialization failure, and range violation all surface as
DH_CHECK_PUB_E. -/
theorem C10_agree_collapses_check_errors_witness :
    (wc_DhAgreeT chkReadFails ⟨23, 5⟩ [6] [7]).1
      = Except.error DhError.DH_CHECK_PUB_E
    ∧ (wc_DhAgreeT chkInitFails ⟨23, 5⟩ [6] [7]).1
      = Except.error DhError.DH_CHECK_PUB_E
    ∧ (wc_DhAgreeT noFaults ⟨23, 5⟩ [6] [22]).1
      = Except.error DhError.DH_CHECK_PUB_E :=
  ⟨C10_agree_collapses_check_errors chkReadFails ⟨23, 5⟩ [6] [7] (by decide),
   C10_agree_collapses_check_errors chkInitFails ⟨23, 5⟩ [6] [7] (by decide),
   C10_agree_collapses_check_errors noFaults ⟨23, 5⟩ [6] [22] (by decide)⟩

/-- The public-key check leaves no live internal handle, under every fault
combination. -/
theorem chk_live_empty (f : Faults) (key : DhKey) (pub : List Nat) :
    liveHandles (wc_DhCheckPubKeyT f key pub).2.1 = [] := by
  unfold wc_DhCheckPubKeyT
  split_ifs <;> rfl

/-- GeneratePublic leaves no live internal handle, under every fault
combination. -/
theorem genpub_live_empty (f : Faults) (key : DhKey) (priv : List Nat) :
    liveHandles (GeneratePublicT f key priv).2.1 = [] := by
  unfold GeneratePublicT
  split_ifs <;> rfl

/-- wc_DhAgree leaves no live internal handle, under every fault
combination. -/
theorem agree_live_empty (f : Faults) (key : DhKey) (priv pub : List Nat) :
    liveHandles (wc_DhAgreeT f key priv pub).2.1 = [] := by
  have hc := chk_live_empty f key pub
  unfold wc_DhAgreeT
  by_cases h : (wc_DhCheckPubKeyT f key pub).1 = none
  · by_cases h2 : f.agInitOk = false
    · simp [h, h2, hc]
    · simp [h, h2]
      rw [liveHandles] at hc ⊢
      rw [List.foldl_append, hc]
      rfl
  · simp [h, hc]

/-- Claim C8: every big-integer handle initialized internally by the
public-key check, by GeneratePublic, or by wc_DhAgree has been released when
the function returns, for every combination of external failures. -/
theorem C8_internal_handles_released (f : Faults) (key : DhKey)
    (priv pub : List Nat) :
    liveHandles (wc_DhCheckPubKeyT f key pub).2.1 = []
    ∧ liveHandles (GeneratePublicT f key priv).2.1 = []
    ∧ liveHandles (wc_DhAgreeT f key priv pub).2.1 = [] :=
  ⟨chk_live_empty f key pub, genpub_live_empty f key priv,
   agree_live_empty f key priv pub⟩

/-- Claim C7: whenever wc_DhSetKey fails, for any combination of decode and
initialization failures, no domain-parameter storage remains allocated: in
particular when p decodes and g fails, the storage of p has been released
before the error return. -/
theorem C7_setkey_atomic_on_failure (f : Faults) (pB gB : List Nat)
    (e : DhError) (h : (wc_DhSetKeyT f pB gB).1 = Except.error e) :
    liveHandles (wc_DhSetKeyT f pB gB).2 = [] := by
  unfold wc_DhSetKeyT at h ⊢
  split_ifs at h ⊢ <;> first | rfl | simp at h

/-- Witness for C7: p decodes but the g decode fails; the call errors with
ASN_DH_KEY_E and no handle stays live. -/
theorem C7_setkey_atomic_on_failure_witness :
    (wc_DhSetKeyT setReadGFails [23] [5]).1
      = Except.error DhError.ASN_DH_KEY_E
    ∧ liveHandles (wc_DhSetKeyT setReadGFails [23] [5]).2 = [] :=
  ⟨by decide,
   C7_setkey_atomic_on_failure setReadGFails [23] [5] DhError.ASN_DH_KEY_E
     (by decide)⟩

/-- Claim C9: the zero-length check of wc_DhSetKey runs before the stripping
of the leading zero byte, so the one-byte buffer 0x00 is not rejected: it is
stripped to the empty buffer, which decodes to 0, and a stored modulus or
generator of value 0 results. -/
theorem C9_lone_zero_byte_accepted :
    stripLeadZero [0] = []
    ∧ wc_DhSetKey [0] [5] = Except.ok ⟨0, 5⟩
    ∧ wc_DhSetKey [23] [0] = Except.ok ⟨23, 0⟩ := by
  decide

/-- Claim C6: wc_DhSetKey strips one leading zero byte and only one: the
stripping step removes exactly the first byte when it is zero and leaves a
second zero byte in place, and loading the buffers 0x00 0x17 and 0x17 stores
the same modulus. -/
theorem C6_strip_exactly_one_zero :
    (∀ bs : List Nat, stripLeadZero (0 :: bs) = bs)
    ∧ stripLeadZero [0, 0, 0x17] = [0, 0x17]
    ∧ wc_DhSetKey [0x00, 0x17] [0x05] = Except.ok ⟨0x17, 0x05⟩
    ∧ wc_DhSetKey [0x17] [0x05] = Except.ok ⟨0x17, 0x05⟩ :=
  ⟨fun bs => rfl, by decide, by decide, by decide⟩

/-- Claim C5: under both sizing policies the tabulated modulus byte lengths
map to exactly the tabulated exponent byte lengths, whatever the work-factor
function. -/
theorem C5_exponent_table (pol : SizePolicy) (wf : Nat → Nat) :
    exponentSize pol wf 128 = Except.ok 21
    ∧ exponentSize pol wf 256 = Except.ok 29
    ∧ exponentSize pol wf 384 = Except.ok 34
    ∧ exponentSize pol wf 512 = Except.ok 39
    ∧ exponentSize pol wf 640 = Except.ok 42
    ∧ exponentSize pol wf 768 = Except.ok 46
    ∧ exponentSize pol wf 896 = Except.ok 49
    ∧ exponentSize pol wf 1024 = Except.ok 52 := by
  cases pol <;> exact ⟨rfl, rfl, rfl, rfl, rfl, rfl, rfl, rfl⟩

/-- A tabulated exponent byte count is at least 21 and at most the table size
that selected it. -/
theorem dhExpTable_some (s w : Nat) (h : dhExpTable s = some w) :
    21 ≤ w ∧ w ≤ s := by
  unfold dhExpTable at h
  split_ifs at h <;> simp_all <;> omega

set_option maxRecDepth 10000 in
/-- Under the fixed-table policy with rounding, for every modulus byte count
up to 1024 and at least 21, the selected exponent byte count, when one is
selected, does not exceed the modulus byte count. -/
theorem roundTable_le_bounded :
    ∀ s < 1025, 21 ≤ s → (dhExpTable (WOLFSSL_DH_ROUND s)).getD s ≤ s := by
  decide

/-- The heuristic policy unfolds to the unrounded table with the work-factor
fallback. -/
theorem exponentSize_heuristic_eq (wf : Nat → Nat) (s : Nat) :
    exponentSize SizePolicy.heuristic wf s =
      (match dhExpTable s with
       | some v => Except.ok v
       | none => Except.ok (min s (2 * wf (s * 8) / 8 + 1))) := rfl

/-- The fixed-table policy unfolds to the rounded table with no fallback. -/
theorem exponentSize_fixed_eq (wf : Nat → Nat) (s : Nat) :
    exponentSize SizePolicy.fixedTable wf s =
      (match dhExpTable (WOLFSSL_DH_ROUND s) with
       | some v => Except.ok v
       | none => Except.error DhError.BAD_FUNC_ARG) := rfl

/-- Under the heuristic policy the selected exponent byte count never exceeds
the modulus byte count. -/
theorem exponentSize_heuristic_le (wf : Nat → Nat) (s v : Nat)
    (h : exponentSize SizePolicy.heuristic wf s = Except.ok v) : v ≤ s := by
  rw [exponentSize_heuristic_eq] at h
  rcases hd : dhExpTable s with _ | w <;> rw [hd] at h <;> simp at h
  · omega
  · have := dhExpTable_some s w hd
    omega

/-- Under the fixed-table policy, for modulus byte counts between 21 and
1024, a selected exponent byte count never exceeds the modulus byte count. -/
theorem exponentSize_fixed_le (wf : Nat → Nat) (s v : Nat)
    (h21 : 21 ≤ s) (h1024 : s ≤ 1024)
    (h : exponentSize SizePolicy.fixedTable wf s = Except.ok v) : v ≤ s := by
  have hb := roundTable_le_bounded s (by omega) h21
  rw [exponentSize_fixed_eq] at h
  rcases hd : dhExpTable (WOLFSSL_DH_ROUND s) with _ | w <;> rw [hd] at h <;>
    simp at h
  rw [hd] at hb
  simp at hb
  omega

/-- A selected exponent byte count is never zero when the modulus byte count
is positive. -/
theorem exponentSize_pos (pol : SizePolicy) (wf : Nat → Nat) (s v : Nat)
    (hs : 1 ≤ s) (h : exponentSize pol wf s = Except.ok v) : 1 ≤ v := by
  cases pol
  · rw [exponentSize_heuristic_eq] at h
    rcases hd : dhExpTable s with _ | w <;> rw [hd] at h <;> simp at h
    · omega
    · have := dhExpTable_some s w hd
      omega
  · rw [exponentSize_fixed_eq] at h
    rcases hd : dhExpTable (WOLFSSL_DH_ROUND s) with _ | w <;> rw [hd] at h <;>
      simp at h
    have := dhExpTable_some (WOLFSSL_DH_ROUND s) w hd
    omega

/-- Forcing bits into the first byte keeps the buffer length. -/
theorem forceBits_length (l : List Nat) : (forceBits l).length = l.length := by
  cases l <;> rfl

/-- Claim C4 (amended): whenever GeneratePrivate succeeds on an RNG that
returns the requested number of bytes and a modulus of positive byte length,
the first byte of the result has bits 0x0C set; under the heuristic policy
the result length never exceeds the modulus byte length, whatever the
work-factor function; under the fixed-table policy the same bound holds when
the modulus byte length is between 21 and 1024.  As stated, with no lower
bound on the modulus byte length, the fixed-table half fails: a one-byte
modulus rounds up to 128 and yields a 21-byte private value; see the
counterexample. -/
theorem C4_private_key_shape (pol : SizePolicy) (wf : Nat → Nat) (f : Faults)
    (key : DhKey) (rng : Nat → List Nat) (bs : List Nat)
    (hrng : ∀ n, (rng n).length = n)
    (hp : 1 ≤ mp_unsigned_bin_size key.p)
    (hbs : GeneratePrivate pol wf f key rng = Except.ok bs) :
    bs.headI &&& 0x0C = 0x0C
    ∧ (pol = SizePolicy.heuristic →
        bs.length ≤ mp_unsigned_bin_size key.p)
    ∧ (pol = SizePolicy.fixedTable → 21 ≤ mp_unsigned_bin_size key.p →
        mp_unsigned_bin_size key.p ≤ 1024 →
        bs.length ≤ mp_unsigned_bin_size key.p) := by
  unfold GeneratePrivate at hbs
  rcases hes : exponentSize pol wf (mp_unsigned_bin_size key.p) with e | sz <;>
    rw [hes] at hbs
  · exact absurd hbs (by simp)
  change (if f.rngOk = false then Except.error DhError.RNG_E
    else Except.ok (forceBits (rng sz))) = Except.ok bs at hbs
  by_cases hr : f.rngOk = false
  · rw [if_pos hr] at hbs
    exact absurd hbs (by simp)
  rw [if_neg hr] at hbs
  have hbs' : forceBits (rng sz) = bs := by
    simpa using hbs
  have hsz : 1 ≤ sz :=
    exponentSize_pos pol wf (mp_unsigned_bin_size key.p) sz hp hes
  have hlen : bs.length = sz := by
    rw [← hbs', forceBits_length, hrng]
  refine ⟨?_, ?_, ?_⟩
  · rcases hrl : rng sz with _ | ⟨c, rest⟩
    · have := hrng sz
      rw [hrl] at this
      simp at this
      omega
    · rw [hrl] at hbs'
      rw [← hbs']
      simpa [forceBits] using lor_land_twelve c
  · intro hpol
    subst hpol
    rw [hlen]
    exact exponentSize_heuristic_le wf _ sz hes
  · intro hpol h21 h1024
    subst hpol
    rw [hlen]
    exact exponentSize_fixed_le wf _ sz h21 h1024 hes

/-- Witness for C4 under the heuristic policy at p = 23: the one-byte result
12 has bits 0x0C set and fits the one-byte modulus. -/
theorem C4_private_key_shape_witness :
    ([12] : List Nat).headI &&& 0x0C = 0x0C
    ∧ (SizePolicy.heuristic = SizePolicy.heuristic →
        ([12] : List Nat).length ≤ mp_unsigned_bin_size (DhKey.mk 23 5).p)
    ∧ (SizePolicy.heuristic = SizePolicy.fixedTable →
        21 ≤ mp_unsigned_bin_size (DhKey.mk 23 5).p →
        mp_unsigned_bin_size (DhKey.mk 23 5).p ≤ 1024 →
        ([12] : List Nat).length ≤ mp_unsigned_bin_size (DhKey.mk 23 5).p) :=
  C4_private_key_shape SizePolicy.heuristic (fun _ => 0) noFaults ⟨23, 5⟩
    (fun n => List.replicate n 0) [12]
    (fun n => List.length_replicate n 0) (by decide) (by decide)

/-- Counterexample to C4 as stated: under the fixed-table policy a one-byte
modulus (p = 23) rounds up to 128 and GeneratePrivate returns a 21-byte
private value, exceeding the modulus byte length 1. -/
theorem C4_cex_fixed_tiny_modulus :
    GeneratePrivate SizePolicy.fixedTable (fun _ => 0) noFaults ⟨23, 5⟩
      (fun n => List.replicate n 0) = Except.ok (12 :: List.replicate 20 0)
    ∧ (12 :: List.replicate 20 0).length = 21
    ∧ mp_unsigned_bin_size 23 = 1 := by
  decide
